import Mathlib

/-!
# Verification of the http-service request pipeline

A shallow embedding of the `http-service` package (the outcome-object draft of
`src/http-service.js`, the draft the specification follows): the request
preparation phase (body serialization, header mutation), the transport
sequencing, and the response end-handler (status classification, content-type
normalization, body parsing, error synthesis).

Modelling conventions:
- JavaScript strings and Node Buffers that hold text are modelled as `List Char`
  (a Buffer is represented by its decoded character content).
- JavaScript objects used as header maps are association lists that keep
  insertion order; property assignment (`headers[k] = v`) overwrites the first
  exact-key entry in place or appends, as `setHeader` below.
- Thrown JavaScript exceptions are modelled with `Except`; the `catch` blocks of
  the source correspond to matching on the `.error` case.
- A brace character inside a modelled string is written with the `\x7b`/`\x7d`
  escapes, and is produced in code via `lbrace`/`rbrace`.
-/

/-- The left curly brace character (written via its code point). -/
def lbrace : Char := Char.ofNat 123

/-- The right curly brace character (written via its code point). -/
def rbrace : Char := Char.ofNat 125

/-- The constant `JSON_MEDIA_TYPE` from the source. -/
def jsonMediaType : List Char := "application/json".toList

/-- The constant `FORM_MEDIA_TYPE` from the source. -/
def formMediaType : List Char := "application/x-www-form-urlencoded".toList

/-- The constant `CONTENT_TYPE_HEADER` from the source. -/
def contentTypeHeader : List Char := "content-type".toList

/-- The constant `CONTENT_LENGTH_HEADER` from the source. -/
def contentLengthHeader : List Char := "content-length".toList

/-- A header value: Node request headers hold strings or numbers
(`headers[CONTENT_LENGTH_HEADER] = Buffer.byteLength(data)` stores a number). -/
inductive HeaderVal where
  | str (s : List Char)
  | num (n : Nat)
deriving DecidableEq

/-- Request headers: a JavaScript object modelled as an insertion-ordered
association list. -/
abbrev Headers := List (List Char × HeaderVal)

/-- Response headers: Node response headers are plain strings. -/
abbrev RespHeaders := List (List Char × List Char)

/-- Source `_headerValue(headers, name)`: linear scan returning the first value whose
key lower-cases to `name`, else `null` (here `none`). Polymorphic so it serves
both request and response headers, as the source function does. -/
def headerValue {α : Type} (headers : List (List Char × α)) (name : List Char) :
    Option α :=
  match headers with
  | [] => none
  | (k, v) :: rest =>
      if k.map Char.toLower = name then some v else headerValue rest name

/-- JavaScript property assignment `headers[name] = v` on an object modelled as
an ordered association list: overwrite the first exact-key entry in place,
else append at the end. -/
def setHeader {α : Type} (headers : List (List Char × α)) (name : List Char)
    (v : α) : List (List Char × α) :=
  match headers with
  | [] => [(name, v)]
  | (k, w) :: rest =>
      if k = name then (k, v) :: rest else (k, w) :: setHeader rest name v

/-- Position of the first occurrence of a character, if any. -/
def firstIdx (c : Char) : List Char → Option Nat
  | [] => none
  | x :: rest => if x = c then some 0 else (firstIdx c rest).map (· + 1)

/-- JavaScript `indexOf` for a single character: the index of the first
occurrence, or `-1` when absent. -/
def jsIndexOf (l : List Char) (c : Char) : Int :=
  match firstIdx c l with
  | some i => (i : Int)
  | none => -1

/-- Source `_removeParams(value)`: when the value is truthy and its
first `;` occurs at a positive index, keep the substring before it; otherwise
return the value unchanged (`null`, the empty string, and strings whose first
character is `;` all fall through). -/
def _removeParams (value : Option (List Char)) : Option (List Char) :=
  match value with
  | none => none
  | some v =>
      if v ≠ [] then
        let semi := jsIndexOf v ';'
        if 0 < semi then some (v.take semi.toNat) else some v
      else some v

/-- A JSON value (JavaScript values produced by `JSON.parse` and consumed by
`JSON.stringify`). Numbers are modelled as integers; non-integer numerals are
outside the model (no claim involves them). -/
inductive JsonVal where
  | null
  | bool (b : Bool)
  | num (n : Int)
  | str (s : List Char)
  | arr (xs : List JsonVal)
  | obj (fields : List (List Char × JsonVal))

/-- UTF-8 byte length of a text value: `Buffer.byteLength(data)`. -/
def utf8Len (s : List Char) : Nat := (s.map Char.utf8Size).sum

/-- Escaping of one character inside a JSON string literal produced by
`JSON.stringify` (quote, backslash and the common control characters). -/
def escapeJsonChar (c : Char) : List Char :=
  if c = '"' ∨ c = '\\' then ['\\', c]
  else if c = '\n' then ['\\', 'n']
  else if c = '\t' then ['\\', 't']
  else if c = '\r' then ['\\', 'r']
  else [c]

mutual

/-- The `JSON.stringify` serialization (compact form, no extra whitespace). -/
def jsonStringify : JsonVal → List Char
  | .null => "null".toList
  | .bool true => "true".toList
  | .bool false => "false".toList
  | .num n => (toString n).toList
  | .str s => '"' :: s.flatMap escapeJsonChar ++ ['"']
  | .arr xs => '[' :: stringifyItems xs ++ [']']
  | .obj fs => lbrace :: stringifyFields fs ++ [rbrace]

/-- Comma-separated serialization of array items. -/
def stringifyItems : List JsonVal → List Char
  | [] => []
  | [x] => jsonStringify x
  | x :: xs => jsonStringify x ++ ',' :: stringifyItems xs

/-- Comma-separated serialization of object fields. -/
def stringifyFields : List (List Char × JsonVal) → List Char
  | [] => []
  | [(k, v)] => '"' :: k.flatMap escapeJsonChar ++ '"' :: ':' :: jsonStringify v
  | (k, v) :: fs =>
      '"' :: k.flatMap escapeJsonChar ++ '"' :: ':' :: jsonStringify v
        ++ ',' :: stringifyFields fs

end

/-- The value of one key inside a `querystring.stringify` pair. Primitive
values print as text, `null` and containers print as the empty value (the
percent-encoding of reserved characters is not modelled; no claim depends on
the encoded text). -/
def qsValueChars : JsonVal → List Char
  | .str s => s
  | .num n => (toString n).toList
  | .bool true => "true".toList
  | .bool false => "false".toList
  | .null => []
  | .arr _ => []
  | .obj _ => []

/-- The `querystring.stringify` serialization on a flat object: `k=v` pairs joined by `&`. -/
def qsStringify : List (List Char × JsonVal) → List Char
  | [] => []
  | [(k, v)] => k ++ '=' :: qsValueChars v
  | (k, v) :: fs => k ++ '=' :: qsValueChars v ++ '&' :: qsStringify fs

/-- A thrown JavaScript error, reduced to the `message` the source reads. -/
structure JsError where
  message : List Char
deriving DecidableEq

/-- JSON whitespace skipping. -/
def skipWs : List Char → List Char
  | [] => []
  | c :: rest =>
      if c = ' ' ∨ c = '\t' ∨ c = '\n' ∨ c = '\r' then skipWs rest else c :: rest

/-- The body of a JSON string literal, after the opening quote: the decoded
characters and the remaining input after the closing quote. -/
def parseStrChars : List Char → Except (List Char) (List Char × List Char)
  | [] => .error "Unterminated string in JSON".toList
  | '\\' :: esc :: rest =>
      let dec : Option Char :=
        if esc = '"' ∨ esc = '\\' ∨ esc = '/' then some esc
        else if esc = 'n' then some '\n'
        else if esc = 't' then some '\t'
        else if esc = 'r' then some '\r'
        else if esc = 'b' then some (Char.ofNat 8)
        else if esc = 'f' then some (Char.ofNat 12)
        else none
      match dec with
      | some c =>
          match parseStrChars rest with
          | .ok (s, r) => .ok (c :: s, r)
          | .error e => .error e
      | none => .error "Bad escape in JSON string".toList
  | c :: rest =>
      if c = '"' then .ok ([], rest)
      else
        match parseStrChars rest with
        | .ok (s, r) => .ok (c :: s, r)
        | .error e => .error e

/-- A run of decimal digits as a natural number (requires at least one digit). -/
def parseDigits : List Char → Except (List Char) (Nat × List Char)
  | l =>
      let ds := l.takeWhile Char.isDigit
      if ds = [] then .error "Unexpected token in JSON".toList
      else .ok (ds.foldl (fun acc c => 10 * acc + (c.toNat - 48)) 0,
                l.dropWhile Char.isDigit)

/-- An integer JSON numeral (optional leading minus). Fraction and exponent
parts are outside the model, which covers integer numerals only. -/
def parseJsonNum : List Char → Except (List Char) (JsonVal × List Char)
  | '-' :: rest =>
      match parseDigits rest with
      | .ok (n, r) => .ok (.num (-(n : Int)), r)
      | .error e => .error e
  | l =>
      match parseDigits l with
      | .ok (n, r) => .ok (.num (n : Int), r)
      | .error e => .error e

mutual

/-- Recursive-descent JSON value parser (fuel-indexed to bound recursion). -/
def parseJsonVal : Nat → List Char → Except (List Char) (JsonVal × List Char)
  | 0, _ => .error "JSON nesting exceeds fuel".toList
  | fuel + 1, l =>
      match skipWs l with
      | [] => .error "Unexpected end of JSON input".toList
      | 'n' :: 'u' :: 'l' :: 'l' :: rest => .ok (.null, rest)
      | 't' :: 'r' :: 'u' :: 'e' :: rest => .ok (.bool true, rest)
      | 'f' :: 'a' :: 'l' :: 's' :: 'e' :: rest => .ok (.bool false, rest)
      | '"' :: rest =>
          match parseStrChars rest with
          | .ok (s, r) => .ok (.str s, r)
          | .error e => .error e
      | '[' :: rest =>
          match skipWs rest with
          | ']' :: r => .ok (.arr [], r)
          | r =>
              match parseArrItems fuel r with
              | .ok (xs, r2) => .ok (.arr xs, r2)
              | .error e => .error e
      | c :: rest =>
          if c = lbrace then
            match skipWs rest with
            | r =>
                if r.head? = some rbrace then .ok (.obj [], r.tail)
                else
                  match parseObjItems fuel r with
                  | .ok (fs, r2) => .ok (.obj fs, r2)
                  | .error e => .error e
          else if c = '-' ∨ c.isDigit then parseJsonNum (c :: rest)
          else .error "Unexpected token in JSON".toList

/-- One or more comma-separated array items, consuming the closing bracket. -/
def parseArrItems : Nat → List Char → Except (List Char) (List JsonVal × List Char)
  | 0, _ => .error "JSON nesting exceeds fuel".toList
  | fuel + 1, l =>
      match parseJsonVal fuel l with
      | .error e => .error e
      | .ok (v, r) =>
          match skipWs r with
          | ',' :: r2 =>
              match parseArrItems fuel r2 with
              | .ok (xs, r3) => .ok (v :: xs, r3)
              | .error e => .error e
          | ']' :: r2 => .ok ([v], r2)
          | _ => .error "Expected comma or bracket in JSON array".toList

/-- One or more comma-separated object members, consuming the closing brace. -/
def parseObjItems :
    Nat → List Char → Except (List Char) (List (List Char × JsonVal) × List Char)
  | 0, _ => .error "JSON nesting exceeds fuel".toList
  | fuel + 1, l =>
      match skipWs l with
      | '"' :: rest =>
          match parseStrChars rest with
          | .error e => .error e
          | .ok (k, r) =>
              match skipWs r with
              | ':' :: r2 =>
                  match parseJsonVal fuel r2 with
                  | .error e => .error e
                  | .ok (v, r3) =>
                      match skipWs r3 with
                      | ',' :: r4 =>
                          match parseObjItems fuel r4 with
                          | .ok (fs, r5) => .ok ((k, v) :: fs, r5)
                          | .error e => .error e
                      | r4 =>
                          if r4.head? = some rbrace then .ok ([(k, v)], r4.tail)
                          else .error "Expected comma or brace in JSON object".toList
              | _ => .error "Expected colon in JSON object".toList
      | _ => .error "Expected string key in JSON object".toList

end

/-- The `JSON.parse` entry point: parse one value and require only whitespace after it. An
empty input fails, as in JavaScript. -/
def jsonParse (s : List Char) : Except JsError JsonVal :=
  match parseJsonVal (2 * s.length + 2) s with
  | .error m => .error ⟨m⟩
  | .ok (v, rest) =>
      if skipWs rest = [] then .ok v
      else .error ⟨"Unexpected token after JSON value".toList⟩


/-- The resolved response body of an outcome: `null`, a raw Buffer, a decoded
text string, or a parsed JSON value. -/
inductive RespBody where
  | absent
  | buf (content : List Char)
  | str (s : List Char)
  | json (v : JsonVal)

/-- Source `_parseBody(type, body)`: strict JSON media type parses the
decoded text as JSON, a truthy type starting with `text/` or ending with `+xml`
decodes to text, anything else passes the value through. Calling `toString` on
a `null` body throws, as in JavaScript. -/
def _parseBody (type : Option (List Char)) (body : Option (List Char)) :
    Except JsError RespBody :=
  if type = some jsonMediaType then
    match body with
    | none => .error ⟨"Cannot read property toString of null".toList⟩
    | some s =>
        match jsonParse s with
        | .error e => .error e
        | .ok v => .ok (.json v)
  else if (match type with
           | some t =>
               !t.isEmpty && ("text/".toList.isPrefixOf t
                 || "+xml".toList.isSuffixOf t)
           | none => false) then
    match body with
    | none => .error ⟨"Cannot read property toString of null".toList⟩
    | some s => .ok (.str s)
  else
    match body with
    | none => .ok .absent
    | some s => .ok (.buf s)

/-- Lookup of one field of a JSON object by exact key (first match). -/
def jsonField (fields : List (List Char × JsonVal)) (k : List Char) :
    Option JsonVal :=
  match fields with
  | [] => none
  | (k2, v) :: rest => if k2 = k then some v else jsonField rest k

/-- Property read on a JSON value known to be non-null: objects yield the
field, every other value yields `undefined` (here `none`). -/
def jsFieldOf (v : JsonVal) (k : List Char) : Option JsonVal :=
  match v with
  | .obj fields => jsonField fields k
  | _ => none

/-- JavaScript truthiness of a possibly-`undefined` value. -/
def jsTruthy : Option JsonVal → Bool
  | none => false
  | some .null => false
  | some (.bool b) => b
  | some (.num n) => n != 0
  | some (.str s) => !s.isEmpty
  | some (.arr _) => true
  | some (.obj _) => true

/-- Property read on the parsed body value: reading a property of `null`
throws a TypeError, strings and Buffers have none of the probed properties. -/
def respMember (b : RespBody) (k : List Char) : Except JsError (Option JsonVal) :=
  match b with
  | .absent => .error ⟨"Cannot read property of null".toList⟩
  | .json .null => .error ⟨"Cannot read property of null".toList⟩
  | .json v => .ok (jsFieldOf v k)
  | .str _ => .ok none
  | .buf _ => .ok none

/-- Source `_parseError(type, body)`, faithfully including its defect:
each branch that recognizes a server error shape executes
`return callback(httpError(code, options, message))`, but `callback`, `code`
and `options` are not in scope inside this module-level function, so resolving
`callback` throws a ReferenceError (in the `error_description` branch a
truthy non-string value instead makes `.split` throw a TypeError first).
Only the no-match path returns normally, with `null`. -/
def _parseError (type : Option (List Char)) (body : RespBody) :
    Except JsError (Option (List Char)) :=
  if type ≠ some jsonMediaType then .ok none
  else
    match respMember body "error_description".toList with
    | .error e => .error e
    | .ok d =>
        if jsTruthy d then
          match d with
          | some (.str _) => .error ⟨"callback is not defined".toList⟩
          | _ => .error ⟨"body.error_description.split is not a function".toList⟩
        else
          match respMember body "error".toList with
          | .error e => .error e
          | .ok e1 =>
              if jsTruthy e1
                  && jsTruthy (match e1 with
                               | some v => jsFieldOf v "message".toList
                               | none => none) then
                .error ⟨"callback is not defined".toList⟩
              else
                match respMember body "odata.error".toList with
                | .error e => .error e
                | .ok o1 =>
                    if jsTruthy o1
                        && jsTruthy (match o1 with
                                     | some v => jsFieldOf v "message".toList
                                     | none => none) then
                      .error ⟨"callback is not defined".toList⟩
                    else .ok none

/-- The request-identifying fields of the per-request `options` object, as
consumed by `_makeMessage`. -/
structure MsgCtx where
  method : List Char
  protocol : List Char
  host : List Char
  port : Nat
  path : List Char

/-- Source `_makeMessage(opt, txt)`: the bracketed request line, with the text
appended after a space when it is truthy. -/
def _makeMessage (opt : MsgCtx) (txt : Option (List Char)) : List Char :=
  let msg := '[' :: opt.method ++ ' ' :: opt.protocol ++ '/' :: '/' :: opt.host
      ++ ':' :: (toString opt.port).toList ++ opt.path ++ [']']
  match txt with
  | none => msg
  | some t => if t.isEmpty then msg else msg ++ ' ' :: t

/-- The failure delivered through the callback: a plain `Error` built in the
`catch` block around body parsing, or the structured error the status
collaborator synthesizes from an error-category code and a message. -/
inductive FailureReason where
  | parseError (message : List Char)
  | statusError (code : Nat) (message : List Char)
deriving DecidableEq

/-- Modelled from the spec: the external status classifier (`@be/http-status`,
not part of this repository) distinguishes at least a no-content category;
status 204 is its representative. -/
def noContentStatus (code : Nat) : Bool := code == 204

/-- Modelled from the spec: the external status classifier marks the error
category; client-error and server-error codes (400 and above) belong to it. -/
def isErrorStatus (code : Nat) : Bool := decide (400 ≤ code)

/-- The outcome object delivered as the callback's second argument:
`status`, `headers`, `type` and `body`, together with the first-argument
error slot. -/
structure Outcome where
  err : Option FailureReason
  status : Nat
  headers : RespHeaders
  type : Option (List Char)
  body : RespBody

/-- The response `end` handler of the outcome-object draft: classify the
status, normalize the content type, resolve the body (null when the category
is no-content, the concatenated chunks otherwise), parse it, synthesize a
status error for error-category responses, and deliver error and outcome
together. A throw inside the `try` block leaves `body` at the value it held
when the throw happened and produces a Parse Error. The request method is
not consulted anywhere in this handler. -/
def handleEnd (opt : MsgCtx) (statusCode : Nat) (respHeaders : RespHeaders)
    (chunks : List (List Char)) : Outcome :=
  let type := _removeParams (headerValue respHeaders contentTypeHeader)
  let body0 : Option (List Char) :=
    if noContentStatus statusCode then none else some chunks.flatten
  let initBody : RespBody :=
    match body0 with
    | none => .absent
    | some b => .buf b
  match _parseBody type body0 with
  | .error e =>
      { err := some (.parseError
          (_makeMessage opt (some ("Parse Error: ".toList ++ e.message)))),
        status := statusCode, headers := respHeaders, type := type,
        body := initBody }
  | .ok parsed =>
      if isErrorStatus statusCode then
        match _parseError type parsed with
        | .error e =>
            { err := some (.parseError
                (_makeMessage opt (some ("Parse Error: ".toList ++ e.message)))),
              status := statusCode, headers := respHeaders, type := type,
              body := parsed }
        | .ok m =>
            { err := some (.statusError statusCode (_makeMessage opt m)),
              status := statusCode, headers := respHeaders, type := type,
              body := parsed }
      else
        { err := none, status := statusCode, headers := respHeaders,
          type := type, body := parsed }

/-- What the transport collaborator reports back for one request. -/
inductive TransportEvent where
  | tError (message : List Char)
  | tResponse (statusCode : Nat) (headers : RespHeaders) (chunks : List (List Char))

/-- One invocation of the caller's completion callback: the transport-error
path passes only the error; the response-end path always passes the outcome
object as second argument. -/
inductive CallbackCall where
  | transportFailure (message : List Char)
  | completed (outcome : Outcome)

/-- The two callback sites of `request`: `request.on('error', ...)` forwards
the transport error alone, the response `end` handler delivers the outcome. -/
def onTransportEvent (opt : MsgCtx) : TransportEvent → CallbackCall
  | .tError m => .transportFailure m
  | .tResponse code hdrs chunks => .completed (handleEnd opt code hdrs chunks)

/-- The `data` argument of `request`: `null`, a structured object (an object
that is not a Buffer), a string, a Buffer, or any other value (carrying what
`typeof` would print). -/
inductive RequestData where
  | null
  | obj (fields : List (List Char × JsonVal))
  | str (s : List Char)
  | bytes (b : List Nat)
  | other (typeName : List Char)

/-- The body-serialization phase of `request` (everything before the transport
call): a structured object is serialized according to the declared
content type — JSON, form-encoding, or a defaulted JSON content-type header —
or rejected with a TypeError carrying the declared type; then a string body
with no explicit Content-Length gets one computed from its byte length. The
headers value returned is the caller's own headers object, which the source
mutates in place. -/
def prepareRequest (headers : Headers) (data : RequestData) :
    Except HeaderVal (Headers × RequestData) :=
  match data with
  | .null => .ok (headers, .null)
  | d0 =>
      let step1 : Except HeaderVal (Headers × RequestData) :=
        match d0 with
        | .obj fields =>
            match headerValue headers contentTypeHeader with
            | some (.str t) =>
                if t = jsonMediaType then
                  .ok (headers, .str (jsonStringify (.obj fields)))
                else if t = formMediaType then
                  .ok (headers, .str (qsStringify fields))
                else .error (.str t)
            | some v => .error v
            | none =>
                .ok (setHeader headers contentTypeHeader (.str jsonMediaType),
                     .str (jsonStringify (.obj fields)))
        | d => .ok (headers, d)
      match step1 with
      | .error e => .error e
      | .ok (h, d) =>
          match d with
          | .str s =>
              if headerValue h contentLengthHeader = none then
                .ok (setHeader h contentLengthHeader (.num (utf8Len s)), .str s)
              else .ok (h, .str s)
          | d2 => .ok (h, d2)

/-- The body written to the transport before end-of-request. -/
inductive WrittenBody where
  | str (s : List Char)
  | bytes (b : List Nat)
deriving DecidableEq

/-- How far `request` gets for given caller headers and data:
a serialization TypeError thrown before `client.request`, a data-shape
TypeError thrown after `client.request` has been issued, or a fully issued
request with the final headers and the written body. -/
inductive RequestStep where
  | failedBeforeTransport (mediaType : HeaderVal)
  | failedAfterTransport (typeName : List Char)
  | issued (headers : Headers) (written : Option WrittenBody)
deriving DecidableEq

/-- The sequencing of `request` around the transport call: body serialization
first (its TypeError prevents any transport call), then `client.request`, and
only then the string-or-Buffer check guarding `request.write`, whose
TypeError therefore fires after the transport call has been issued. -/
def issueRequest (callerHeaders : Option Headers) (data : RequestData) :
    RequestStep :=
  let headers := callerHeaders.getD []
  match prepareRequest headers data with
  | .error t => .failedBeforeTransport t
  | .ok (h, d) =>
      match d with
      | .null => .issued h none
      | .str s => .issued h (some (.str s))
      | .bytes b => .issued h (some (.bytes b))
      | .obj _ => .failedAfterTransport "object".toList
      | .other tag => .failedAfterTransport tag

/-- A constructor URI of the form `scheme://host[:port][/path]`, the shape the
claim quantifies over, as its grammatical components. -/
structure UriForm where
  scheme : List Char
  host : List Char
  port : Option Nat
  path : Option (List Char)

/-- What Node's legacy `url.parse` yields on a URI of that form: the protocol
with its trailing colon, the hostname, the port when one is written, and the
pathname (a bare `/` when the URI has no path). -/
structure ParsedUrl where
  protocol : List Char
  hostname : List Char
  port : Option Nat
  pathname : List Char

/-- Node `url.parse` restricted to the `scheme://host[:port][/path]` grammar. -/
def urlParse (u : UriForm) : ParsedUrl :=
  { protocol := u.scheme ++ [':'], hostname := u.host, port := u.port,
    pathname := u.path.getD ['/'] }

/-- The fields the constructor stores on the instance. -/
structure ServiceState where
  protocol : List Char
  hostname : List Char
  pathname : List Char
  port : Nat
deriving DecidableEq

/-- The `HttpService` constructor: reject any protocol other than `http:` or
`https:`, then derive the port — `parseInt` of an absent port is NaN, and both
NaN and 0 are falsy, so both fall back to 80 for http and 443 for https. -/
def constructService (u : UriForm) : Except (List Char) ServiceState :=
  let parsed := urlParse u
  if parsed.protocol ≠ "http:".toList ∧ parsed.protocol ≠ "https:".toList then
    .error "invalid protocol (expected http or https)".toList
  else
    let p0 : Nat :=
      match parsed.port with
      | none => 0
      | some n => n
    let port :=
      if p0 = 0 then (if parsed.protocol = "http:".toList then 80 else 443)
      else p0
    .ok { protocol := parsed.protocol, hostname := parsed.hostname,
          pathname := parsed.pathname, port := port }

/-! ## Helper lemmas -/

/-- Assigning a header key that is absent (even case-insensitively) appends a
new entry at the end of the map. -/
theorem setHeader_eq_append {α : Type} (headers : List (List Char × α))
    (name : List Char) (v : α) (hn : name.map Char.toLower = name)
    (h : headerValue headers name = none) :
    setHeader headers name v = headers ++ [(name, v)] := by
  induction headers with
  | nil => rfl
  | cons p rest ih =>
      obtain ⟨k, w⟩ := p
      by_cases hk : k.map Char.toLower = name
      · simp [headerValue, hk] at h
      · simp only [headerValue, if_neg hk] at h
        have hkn : k ≠ name := fun he => hk (he ▸ hn)
        simp [setHeader, hkn, ih h]

/-- Appending an entry under a different (case-insensitive) key does not
change a lookup. -/
theorem headerValue_append_ne {α : Type} (headers : List (List Char × α))
    (m name : List Char) (v : α) (hm : m.map Char.toLower ≠ name) :
    headerValue (headers ++ [(m, v)]) name = headerValue headers name := by
  induction headers with
  | nil => simp [headerValue, hm]
  | cons p rest ih =>
      obtain ⟨k, w⟩ := p
      by_cases hk : k.map Char.toLower = name <;>
        simp [headerValue, hk, ih]

/-- Appending an entry under the looked-up key makes a previously failing
lookup return the new value. -/
theorem headerValue_append_eq {α : Type} (headers : List (List Char × α))
    (m name : List Char) (v : α)
    (h : headerValue headers name = none) (hm : m.map Char.toLower = name) :
    headerValue (headers ++ [(m, v)]) name = some v := by
  induction headers with
  | nil => simp [headerValue, hm]
  | cons p rest ih =>
      obtain ⟨k, w⟩ := p
      by_cases hk : k.map Char.toLower = name
      · simp [headerValue, hk] at h
      · simp only [headerValue, if_neg hk] at h
        simp only [List.cons_append, headerValue, if_neg hk]
        exact ih h

/-- A character that occurs in the list has a first index. -/
theorem firstIdx_isSome_of_mem {l : List Char} {c : Char} (h : c ∈ l) :
    ∃ j, firstIdx c l = some j := by
  induction l with
  | nil => cases h
  | cons x rest ih =>
      by_cases hx : x = c
      · exact ⟨0, by simp [firstIdx, hx]⟩
      · have hr : c ∈ rest := by
          cases h with
          | head => exact absurd rfl hx
          | tail _ h2 => exact h2
        obtain ⟨j, hj⟩ := ih hr
        exact ⟨j + 1, by simp [firstIdx, hx, hj]⟩

/-- A character that does not occur has no first index. -/
theorem firstIdx_eq_none_of_not_mem {l : List Char} {c : Char} (h : c ∉ l) :
    firstIdx c l = none := by
  induction l with
  | nil => rfl
  | cons x rest ih =>
      have hx : x ≠ c := fun he => h (he ▸ List.mem_cons_self x rest)
      have hr : c ∉ rest := fun hm => h (List.mem_cons_of_mem x hm)
      simp [firstIdx, hx, ih hr]

/-- Taking up to the first occurrence of a character is taking while the
character has not appeared. -/
theorem take_firstIdx_eq_takeWhile {l : List Char} {c : Char} {j : Nat}
    (h : firstIdx c l = some j) :
    l.take j = l.takeWhile (· != c) := by
  induction l generalizing j with
  | nil => simp [firstIdx] at h
  | cons x rest ih =>
      by_cases hx : x = c
      · simp only [firstIdx, if_pos hx] at h
        have h0 : 0 = j := Option.some.inj h
        subst h0
        simp [List.takeWhile_cons, hx]
      · simp only [firstIdx, if_neg hx] at h
        cases hmap : firstIdx c rest with
        | none => rw [hmap] at h; simp at h
        | some j' =>
            rw [hmap] at h
            simp only [Option.map_some'] at h
            have hj : j' + 1 = j := Option.some.inj h
            subst hj
            simp [List.takeWhile_cons, hx, List.take_succ_cons, ih hmap]

/-! ## Claim C9 -/

/-- C9 (counterexample): the claim says `removeParams` strips everything from
the first `;` onward, which on `";x"` would yield the empty string; the code
leaves a string whose first character is `;` unchanged. -/
theorem removeParams_counterexample :
    _removeParams (some ";x".toList) = some ";x".toList
    ∧ ";x".toList.takeWhile (· != ';') = ([] : List Char)
    ∧ some ";x".toList ≠ some ([] : List Char) := by
  refine ⟨rfl, rfl, ?_⟩
  decide

/-- C9 (amended): `removeParams` strips everything from the first `;` onward
when that `;` occurs at a positive index, returns the string unchanged when it
contains no `;`, and also returns it unchanged when its first character is
`;`. -/
theorem removeParams_spec (s : List Char) :
    (';' ∈ s → s.head? ≠ some ';' →
        _removeParams (some s) = some (s.takeWhile (· != ';')))
    ∧ (';' ∉ s → _removeParams (some s) = some s)
    ∧ (s.head? = some ';' → _removeParams (some s) = some s) := by
  refine ⟨?_, ?_, ?_⟩
  · intro hmem hhead
    cases s with
    | nil => cases hmem
    | cons x t =>
        have hx : x ≠ ';' := by
          intro he
          exact hhead (by rw [he]; rfl)
        have hmt : ';' ∈ t := by
          cases hmem with
          | head => exact absurd rfl hx
          | tail _ h2 => exact h2
        obtain ⟨j, hj⟩ := firstIdx_isSome_of_mem hmt
        have hfi : firstIdx ';' (x :: t) = some (j + 1) := by
          simp [firstIdx, hx, hj]
        have htake := take_firstIdx_eq_takeWhile hfi
        simp only [_removeParams, jsIndexOf, hfi]
        simp [htake]
  · intro hmem
    cases s with
    | nil => rfl
    | cons x t =>
        have hfi : firstIdx ';' (x :: t) = none :=
          firstIdx_eq_none_of_not_mem hmem
        simp only [_removeParams, jsIndexOf, hfi]
        simp
  · intro hhead
    cases s with
    | nil => rfl
    | cons x t =>
        have hx : x = ';' := Option.some.inj hhead
        have hfi : firstIdx ';' (x :: t) = some 0 := by
          simp [firstIdx, hx]
        simp only [_removeParams, jsIndexOf, hfi]
        simp

/-- C9 (witness): the amended statement at the two quoted inputs. -/
theorem removeParams_spec_witness :
    ';' ∈ "text/html; charset=utf-8".toList
    ∧ _removeParams (some "text/html; charset=utf-8".toList)
        = some "text/html".toList
    ∧ ';' ∉ "text/html".toList
    ∧ _removeParams (some "text/html".toList) = some "text/html".toList := by
  refine ⟨by decide, ?_, by decide, ?_⟩
  · have h := (removeParams_spec "text/html; charset=utf-8".toList).1
      (by decide) (by decide)
    exact h.trans (by decide)
  · exact (removeParams_spec "text/html".toList).2.1 (by decide)

/-! ## Claims C8, C10, C5 -/

/-- C8 (counterexample): a Buffer body with no Content-Length header is
written without the pipeline ever computing one — the request is issued with
the headers still empty. The claim says string or raw-bytes bodies both get a
computed Content-Length. -/
theorem contentLength_counterexample :
    issueRequest (some []) (.bytes [104, 105])
      = .issued [] (some (.bytes [104, 105]))
    ∧ headerValue ([] : Headers) contentLengthHeader = none := ⟨rfl, rfl⟩

/-- C8 (amended): whenever the body that survives serialization is a string
and the caller supplied no Content-Length header (case-insensitively), the
pipeline sets Content-Length to the byte length of that string; raw-bytes
bodies receive no such header. -/
theorem contentLength_set_for_string_bodies
    (headers : Headers) (data : RequestData) (h2 : Headers) (s : List Char)
    (hcl : headerValue headers contentLengthHeader = none)
    (hp : prepareRequest headers data = .ok (h2, .str s)) :
    headerValue h2 contentLengthHeader = some (.num (utf8Len s)) := by
  have hn_cl : contentLengthHeader.map Char.toLower = contentLengthHeader := by
    decide
  cases data with
  | null => simp [prepareRequest] at hp
  | bytes b => simp [prepareRequest] at hp
  | other t => simp [prepareRequest] at hp
  | str s0 =>
      simp [prepareRequest, hcl] at hp
      obtain ⟨hh, rfl⟩ := hp
      rw [← hh, setHeader_eq_append headers contentLengthHeader _ hn_cl hcl]
      exact headerValue_append_eq headers _ _ _ hcl hn_cl
  | obj fields =>
      cases hct : headerValue headers contentTypeHeader with
      | none =>
          have hset := setHeader_eq_append headers contentTypeHeader
            (.str jsonMediaType) (by decide) hct
          have hcl2 : headerValue (headers ++ [(contentTypeHeader,
              HeaderVal.str jsonMediaType)]) contentLengthHeader = none := by
            rw [headerValue_append_ne headers _ _ _ (by decide)]
            exact hcl
          simp [prepareRequest, hct, hset, hcl2] at hp
          obtain ⟨hh, rfl⟩ := hp
          rw [← hh, setHeader_eq_append _ contentLengthHeader _ hn_cl hcl2]
          exact headerValue_append_eq _ _ _ _ hcl2 hn_cl
      | some v =>
          cases v with
          | num n => simp [prepareRequest, hct] at hp
          | str t =>
              by_cases hj : t = jsonMediaType
              · simp [prepareRequest, hct, hj, hcl] at hp
                obtain ⟨hh, rfl⟩ := hp
                rw [← hh,
                  setHeader_eq_append headers contentLengthHeader _ hn_cl hcl]
                exact headerValue_append_eq headers _ _ _ hcl hn_cl
              · by_cases hf : t = formMediaType
                · subst hf
                  simp [prepareRequest, hct, hj, hcl] at hp
                  obtain ⟨hh, rfl⟩ := hp
                  rw [← hh,
                    setHeader_eq_append headers contentLengthHeader _ hn_cl hcl]
                  exact headerValue_append_eq headers _ _ _ hcl hn_cl
                · simp [prepareRequest, hct, hj, hf] at hp

/-- C8 (witness): the amended statement at a concrete two-byte string body. -/
theorem contentLength_set_witness :
    headerValue ([] : Headers) contentLengthHeader = none
    ∧ headerValue [(contentLengthHeader, HeaderVal.num 2)] contentLengthHeader
        = some (.num 2) :=
  ⟨rfl, contentLength_set_for_string_bodies [] (.str "hi".toList)
      [(contentLengthHeader, HeaderVal.num 2)] "hi".toList rfl rfl⟩

/-- C10 (confirmed): with a structured body and no caller-supplied
Content-Type or Content-Length, `request` extends the caller's own headers
object in place with the defaulted `content-type` entry and the computed
`content-length` entry — the returned header state is the caller's map with
the two entries appended, which is what the caller observes afterwards. -/
theorem request_mutates_caller_headers
    (headers : Headers) (fields : List (List Char × JsonVal))
    (hct : headerValue headers contentTypeHeader = none)
    (hcl : headerValue headers contentLengthHeader = none) :
    prepareRequest headers (.obj fields)
      = .ok (headers
              ++ [(contentTypeHeader, .str jsonMediaType),
                  (contentLengthHeader,
                    .num (utf8Len (jsonStringify (.obj fields))))],
             .str (jsonStringify (.obj fields))) := by
  have hset := setHeader_eq_append headers contentTypeHeader
    (.str jsonMediaType) (by decide) hct
  have hcl2 : headerValue (headers ++ [(contentTypeHeader,
      HeaderVal.str jsonMediaType)]) contentLengthHeader = none := by
    rw [headerValue_append_ne headers _ _ _ (by decide)]
    exact hcl
  have hset2 := setHeader_eq_append
    (headers ++ [(contentTypeHeader, HeaderVal.str jsonMediaType)])
    contentLengthHeader
    (.num (utf8Len (jsonStringify (.obj fields)))) (by decide) hcl2
  simp [prepareRequest, hct, hset, hcl2, hset2]

/-- C10 (witness): the confirmed statement at a caller map holding one custom
header and the body object with a single numeric field. -/
theorem request_mutates_caller_headers_witness :
    headerValue [("x-custom".toList, HeaderVal.str "1".toList)]
        contentTypeHeader = none
    ∧ prepareRequest [("x-custom".toList, HeaderVal.str "1".toList)]
        (.obj [("a".toList, .num 1)])
      = .ok ([("x-custom".toList, .str "1".toList),
              (contentTypeHeader, .str jsonMediaType),
              (contentLengthHeader,
                .num (utf8Len (jsonStringify (.obj [("a".toList, .num 1)]))))],
             .str (jsonStringify (.obj [("a".toList, .num 1)]))) :=
  ⟨rfl, request_mutates_caller_headers
      [("x-custom".toList, HeaderVal.str "1".toList)]
      [("a".toList, .num 1)] rfl rfl⟩

/-- C5 (counterexample): a body that is neither a structured object, a string,
nor a Buffer (here a number) passes the serialization phase untouched, so its
rejection happens only after `client.request` has been issued — not before the
transport call, as the claim states for every unsupported-body failure. -/
theorem unsupportedBody_counterexample :
    issueRequest (some []) (.other "number".toList)
      = .failedAfterTransport "number".toList := rfl

/-- C5 (amended): a structured object with an unsupported declared
Content-Type is rejected before the transport call is issued, but a body that
is neither object, string, nor raw bytes is rejected only after the transport
call has been issued. -/
theorem unsupportedBody_failure_ordering
    (headers : Headers) (fields : List (List Char × JsonVal)) (t : List Char)
    (hct : headerValue headers contentTypeHeader = some (.str t))
    (hj : t ≠ jsonMediaType) (hf : t ≠ formMediaType) :
    issueRequest (some headers) (.obj fields)
      = .failedBeforeTransport (.str t)
    ∧ ∀ tag, issueRequest (some headers) (.other tag)
        = .failedAfterTransport tag := by
  constructor
  · simp [issueRequest, prepareRequest, hct, hj, hf]
  · intro tag
    rfl

/-- C5 (witness): the amended statement with a declared `text/csv` body type
and with a number-typed body. -/
theorem unsupportedBody_failure_ordering_witness :
    headerValue [(contentTypeHeader, HeaderVal.str "text/csv".toList)]
        contentTypeHeader = some (.str "text/csv".toList)
    ∧ issueRequest (some [(contentTypeHeader, HeaderVal.str "text/csv".toList)])
        (.obj []) = .failedBeforeTransport (.str "text/csv".toList)
    ∧ issueRequest (some [(contentTypeHeader, HeaderVal.str "text/csv".toList)])
        (.other "boolean".toList)
      = .failedAfterTransport "boolean".toList := by
  have h := unsupportedBody_failure_ordering
    [(contentTypeHeader, HeaderVal.str "text/csv".toList)] [] "text/csv".toList
    (by decide) (by decide) (by decide)
  exact ⟨by decide, h.1, h.2 "boolean".toList⟩

/-! ## Claims C6, C1, C2, C3, C4 -/

/-- C6 (confirmed): when the normalized response content type is exactly the
JSON media type and the buffered body (empty or otherwise) fails to parse as
JSON, the outcome carries a body-parse failure — a plain `Error` from the
catch block — whatever the status code, so parse failures take precedence
over status-based error classification. -/
theorem jsonParseFailure_takes_precedence
    (opt : MsgCtx) (code : Nat) (respHeaders : RespHeaders)
    (chunks : List (List Char)) (e : JsError)
    (htype : _removeParams (headerValue respHeaders contentTypeHeader)
        = some jsonMediaType)
    (hbad : jsonParse chunks.flatten = .error e) :
    ∃ m, (handleEnd opt code respHeaders chunks).err
        = some (.parseError m) := by
  by_cases hnc : noContentStatus code
  · exact ⟨_makeMessage opt (some ("Parse Error: ".toList
        ++ "Cannot read property toString of null".toList)), by
      simp [handleEnd, htype, hnc, _parseBody]⟩
  · exact ⟨_makeMessage opt (some ("Parse Error: ".toList ++ e.message)), by
      simp [handleEnd, htype, hnc, _parseBody, hbad]⟩

/-- C6 (witness): a status-200 response declaring `application/json` with an
empty buffered body yields a body-parse failure, not a success. -/
theorem jsonParseFailure_witness :
    _removeParams (headerValue
        ([("content-type".toList, "application/json".toList)] : RespHeaders)
        contentTypeHeader) = some jsonMediaType
    ∧ jsonParse ([] : List (List Char)).flatten
        = .error ⟨"Unexpected end of JSON input".toList⟩
    ∧ ∃ m, (handleEnd ⟨"GET".toList, "http:".toList, "h".toList, 80, "/".toList⟩
          200 [("content-type".toList, "application/json".toList)] []).err
        = some (.parseError m) :=
  ⟨rfl, rfl, jsonParseFailure_takes_precedence
      ⟨"GET".toList, "http:".toList, "h".toList, 80, "/".toList⟩ 200
      [("content-type".toList, "application/json".toList)] []
      ⟨"Unexpected end of JSON input".toList⟩ rfl rfl⟩

/-- Whatever the end handler does, the outcome it delivers carries the
response status code and the full response headers. -/
theorem handleEnd_status_headers (opt : MsgCtx) (code : Nat)
    (hdrs : RespHeaders) (chunks : List (List Char)) :
    (handleEnd opt code hdrs chunks).status = code
    ∧ (handleEnd opt code hdrs chunks).headers = hdrs := by
  simp only [handleEnd]
  repeat' split
  all_goals exact ⟨rfl, rfl⟩

/-- C1 (counterexample): a completed status-418 `text/plain` response delivers
a non-null error together with the response body, type and headers in the
same callback invocation — contradicting the claim that a failure is never
accompanied by any part of the success payload. -/
theorem callback_both_error_and_payload :
    ∃ o, onTransportEvent
        ⟨"GET".toList, "http:".toList, "h".toList, 80, "/s".toList⟩
        (.tResponse 418 [("content-type".toList, "text/plain".toList)]
          ["teapot".toList])
      = .completed o
    ∧ o.err ≠ none
    ∧ o.body = .str "teapot".toList
    ∧ o.type = some "text/plain".toList
    ∧ o.headers = [("content-type".toList, "text/plain".toList)] := by
  refine ⟨_, rfl, ?_, rfl, rfl, rfl⟩
  decide

/-- C1 (amended): only the transport-error path delivers an error alone; every
completed response — error or not — delivers the outcome object carrying the
status and the full response headers (and a type and body slot) alongside the
error argument. -/
theorem callback_payload_delivery (opt : MsgCtx) :
    (∀ m, onTransportEvent opt (.tError m) = .transportFailure m)
    ∧ ∀ code hdrs chunks, ∃ o,
        onTransportEvent opt (.tResponse code hdrs chunks) = .completed o
        ∧ o.status = code ∧ o.headers = hdrs :=
  ⟨fun _ => rfl, fun code hdrs chunks =>
    ⟨handleEnd opt code hdrs chunks, rfl,
      (handleEnd_status_headers opt code hdrs chunks).1,
      (handleEnd_status_headers opt code hdrs chunks).2⟩⟩

/-- C2 (code defect): a no-content 204 response that declares
`application/json` does not yield a success with absent body — the null body
is fed to `_parseBody`, whose `body.toString()` throws, and the outcome is a
parse failure. -/
theorem noContent_json_parse_crash :
    (handleEnd ⟨"GET".toList, "http:".toList, "h".toList, 80, "/s".toList⟩ 204
        [("content-type".toList, "application/json".toList)] []).err
      = some (.parseError
          "[GET http://h:80/s] Parse Error: Cannot read property toString of null".toList)
    ∧ noContentStatus 204 = true := ⟨rfl, rfl⟩

/-- C3 (code defect): a 401 `application/json` response whose body is the
error object with message `bad token` does not produce a status-401 failure
mentioning that message: `_parseError` hits its out-of-scope `callback`
reference, and the caught ReferenceError surfaces as a parse failure whose
text never contains the server-supplied message. -/
theorem serverError_message_extraction_crash :
    (handleEnd ⟨"GET".toList, "http:".toList, "h".toList, 80, "/s".toList⟩ 401
        [("content-type".toList, "application/json".toList)]
        ["\x7b\"error\":\x7b\"message\":\"bad token\"\x7d\x7d".toList]).err
      = some (.parseError
          "[GET http://h:80/s] Parse Error: callback is not defined".toList)
    ∧ isErrorStatus 401 = true := ⟨rfl, rfl⟩

/-- C4 (code defect): the end handler never consults the request method, so a
HEAD response with buffered `text/plain` content resolves to that content
instead of an absent body, and a HEAD response declaring `application/json`
with the usual empty buffer is parsed — and fails — instead of being skipped. -/
theorem head_body_not_forced_absent :
    (handleEnd ⟨"HEAD".toList, "http:".toList, "h".toList, 80, "/s".toList⟩ 200
        [("content-type".toList, "text/plain".toList)] ["hi".toList]).body
      = .str "hi".toList
    ∧ (handleEnd ⟨"HEAD".toList, "http:".toList, "h".toList, 80, "/s".toList⟩ 200
        [("content-type".toList, "application/json".toList)] []).err
      = some (.parseError
          "[HEAD http://h:80/s] Parse Error: Unexpected end of JSON input".toList) :=
  ⟨rfl, rfl⟩

/-! ## Claim C7 -/

/-- C7 (counterexample): a URI that explicitly specifies port 0 does not keep
that port — `parseInt` yields the falsy 0, so the constructor silently falls
back to the scheme default 80, although a port was specified. -/
theorem constructor_port_zero_counterexample :
    constructService ⟨"http".toList, "h".toList, some 0, none⟩
      = .ok ⟨"http:".toList, "h".toList, "/".toList, 80⟩
    ∧ (80 : Nat) ≠ 0 := ⟨rfl, by decide⟩

/-- C7 (amended): construction succeeds exactly for the http and https
schemes; a specified nonzero port is kept, while an unspecified port — and
likewise a specified port of 0 — falls back to 80 for http and 443 for
https. -/
theorem constructService_spec (u : UriForm) :
    ((∃ s, constructService u = .ok s)
        ↔ (u.scheme = "http".toList ∨ u.scheme = "https".toList))
    ∧ (∀ s n, constructService u = .ok s → u.port = some n → 0 < n →
        s.port = n)
    ∧ (∀ s, constructService u = .ok s →
        (u.port = none ∨ u.port = some 0) →
        s.port = if u.scheme = "http".toList then 80 else 443) := by
  obtain ⟨sc, host, port?, path?⟩ := u
  by_cases h1 : sc = "http".toList
  · subst h1
    refine ⟨⟨fun _ => Or.inl rfl, fun _ => ?_⟩, fun s n hp hport hn => ?_,
      fun s hp hport => ?_⟩
    · simp only [constructService, urlParse]
      rw [if_neg (by decide)]
      exact ⟨_, rfl⟩
    · subst hport
      have hn0 : n ≠ 0 := Nat.pos_iff_ne_zero.mp hn
      simp only [constructService, urlParse] at hp
      rw [if_neg (by decide)] at hp
      simp only [if_neg hn0] at hp
      rw [Except.ok.injEq] at hp
      rw [← hp]
    · simp only [constructService, urlParse] at hp
      rw [if_neg (by decide)] at hp
      rcases hport with h | h <;> subst h <;>
        · simp only [if_pos rfl] at hp
          rw [Except.ok.injEq] at hp
          rw [← hp]
          simp
  · by_cases h2 : sc = "https".toList
    · subst h2
      refine ⟨⟨fun _ => Or.inr rfl, fun _ => ?_⟩, fun s n hp hport hn => ?_,
        fun s hp hport => ?_⟩
      · simp only [constructService, urlParse]
        rw [if_neg (by decide)]
        exact ⟨_, rfl⟩
      · subst hport
        have hn0 : n ≠ 0 := Nat.pos_iff_ne_zero.mp hn
        simp only [constructService, urlParse] at hp
        rw [if_neg (by decide)] at hp
        simp only [if_neg hn0] at hp
        rw [Except.ok.injEq] at hp
        rw [← hp]
      · simp only [constructService, urlParse] at hp
        rw [if_neg (by decide)] at hp
        rcases hport with h | h <;> subst h <;>
          · simp only [if_pos rfl] at hp
            rw [Except.ok.injEq] at hp
            rw [← hp]
            simp [h1]
    · have hcond : sc ++ [':'] ≠ "http:".toList ∧ sc ++ [':'] ≠ "https:".toList := by
        constructor
        · intro he
          exact h1 (List.append_cancel_right
            (he.trans (by decide : "http:".toList = "http".toList ++ [':'])))
        · intro he
          exact h2 (List.append_cancel_right
            (he.trans (by decide : "https:".toList = "https".toList ++ [':'])))
      have herr : constructService ⟨sc, host, port?, path?⟩
          = .error "invalid protocol (expected http or https)".toList := by
        simp only [constructService, urlParse]
        rw [if_pos hcond]
      refine ⟨⟨fun ⟨s, hs2⟩ => ?_, fun h => ?_⟩, fun s n hp _ _ => ?_,
        fun s hp _ => ?_⟩
      · rw [herr] at hs2
        cases hs2
      · rcases h with h | h
        · exact absurd h h1
        · exact absurd h h2
      · rw [herr] at hp
        cases hp
      · rw [herr] at hp
        cases hp

/-- C7 (witness): the amended statement at a URI with an explicit nonzero
port and at one with no port. -/
theorem constructService_spec_witness :
    constructService ⟨"https".toList, "ex".toList, some 8443,
        some "/api".toList⟩
      = .ok ⟨"https:".toList, "ex".toList, "/api".toList, 8443⟩
    ∧ (⟨"https:".toList, "ex".toList, "/api".toList, 8443⟩
        : ServiceState).port = 8443
    ∧ (⟨"https:".toList, "ex".toList, "/".toList, 443⟩
        : ServiceState).port
      = if ("https".toList : List Char) = "http".toList then 80 else 443 :=
  ⟨rfl,
    (constructService_spec
        ⟨"https".toList, "ex".toList, some 8443, some "/api".toList⟩).2.1
      _ 8443 rfl rfl (by decide),
    (constructService_spec
        ⟨"https".toList, "ex".toList, none, none⟩).2.2
      _ rfl (Or.inl rfl)⟩
